import Mathlib

/-!
# ws-daemon cgroup plugin `iolimiter-v1`

A shallow embedding of `components/ws-daemon/pkg/cgroup/plugin_iolimit_v1.go`:
the constructor `NewIOLimiterV1`, which submits the block-IO class
configuration, and `IOLimiterV1.Apply`, which spawns the per-cgroup
enforcement goroutine.

Conventions of the embedding:
* Go `int64` values are `Int`s; `string` is `String`; an `error` is an
  `Option String` (`none` is the nil error).
* `blockio.SetConfig` and `blockio.SetCgroupClass` belong to an external
  library; their results are supplied from outside (a function argument, or
  the result carried by an event) and every call made is recorded.
* The goroutine is a step function over the cases its `select` can take.
-/

namespace Cgroup

/-! ## `fmt.Sprintf("%v", n)` on integers -/

/-- The base-10 loop of Go's integer formatting: while `u >= 10` the digit
`'0' + u - (u/10)*10` is written in front of the buffer and `u` becomes
`u / 10`; the last digit `'0' + u` is written after the loop.  The first
argument bounds the number of iterations. -/
def fmtDigitLoop : Nat → Nat → List Char → List Char
  | 0, u, buf => Char.ofNat (48 + u) :: buf
  | fuel + 1, u, buf =>
    if 10 ≤ u then
      fmtDigitLoop fuel (u / 10) (Char.ofNat (48 + (u - (u / 10) * 10)) :: buf)
    else
      Char.ofNat (48 + u) :: buf

/-- Go's `fmtInteger` for a signed value in base 10 without flags: the sign is
split off, the magnitude is written by the digit loop, and a `'-'` is put in
front of a negative number.  The magnitude itself bounds the loop. -/
def fmtInteger (v : Int) : String :=
  let negative := decide (v < 0)
  let u := v.natAbs
  let buf := fmtDigitLoop u u []
  String.mk (if negative then '-' :: buf else buf)

/-- The value of `fmt.Sprintf("%v", v)` for an integer `v`. -/
def Sprintf_v (v : Int) : String := fmtInteger v

/-! ## Data model of the block-IO configuration -/

/-- The fields of `blockio.DevicesParameters` that the plugin fills in. -/
structure DevicesParameters where
  Devices : List String
  ThrottleReadBps : String
  ThrottleWriteBps : String
  ThrottleReadIOPS : String
  ThrottleWriteIOPS : String
  deriving DecidableEq, Repr

/-- The type `blockio.Config`: `Classes` is a Go map from class name to rules,
kept here as the list of the entries of the map literal. -/
structure Config where
  Classes : List (String × List DevicesParameters)
  deriving DecidableEq, Repr

/-- Map lookup `cfg.Classes[name]`. -/
def Config.class? (cfg : Config) (name : String) : Option (List DevicesParameters) :=
  (cfg.Classes.find? (fun e => e.1 == name)).map Prod.snd

/-- The class names (keys) of a configuration. -/
def Config.classNames (cfg : Config) : List String :=
  cfg.Classes.map Prod.fst

/-! ## Logging and process outcome -/

inductive LogLevel where
  | debug
  | error
  | fatal
  deriving DecidableEq, Repr

/-- One log line: level, message, the attached error (`WithError`) and the
attached `cgroupPath` field (`WithField`). -/
structure LogEntry where
  level : LogLevel
  msg : String
  err : Option String
  cgroupPath : Option String
  deriving DecidableEq, Repr

/-- How a call ends: it returns a value, or the process exits with a code. -/
inductive Outcome (α : Type) where
  | returned (a : α)
  | exited (code : Nat)
  deriving DecidableEq, Repr

/-- Modelled from the spec: `log.WithError(err).Fatal(msg)` of the repository's
`common-go/log` package, which is defined outside this package.  The spec
says a rejected submission "is fatal to the entire host process" and that the
policy is to "terminate the entire host process": the call writes the log
line and the process exits (status 1) instead of returning. -/
def logFatal (logs : List LogEntry) (err : String) (msg : String) :
    List LogEntry × Outcome Unit :=
  (logs ++ [{ level := .fatal, msg := msg, err := some err, cgroupPath := none }],
   .exited 1)

/-! ## `NewIOLimiterV1` -/

/-- The plugin type; the Go struct has no fields. -/
structure IOLimiterV1 where
  deriving DecidableEq, Repr

/-- What a run of the constructor did and how it ended: the
`blockio.SetConfig` calls made (configuration and `force` flag), the log
lines written, and the outcome. -/
structure NewResult where
  setConfigCalls : List (Config × Bool)
  logs : List LogEntry
  outcome : Outcome IOLimiterV1
  deriving DecidableEq, Repr

/-- The configuration literal built by `NewIOLimiterV1`. -/
def newConfig (writeBytesPerSecond readBytesPerSecond writeIOPs readIOPs : Int) : Config :=
  { Classes := [
      ("default", [
        { Devices := ["/dev/sd[a-z]", "/dev/md[0-99]"]
          ThrottleReadBps := Sprintf_v readBytesPerSecond
          ThrottleWriteBps := Sprintf_v writeBytesPerSecond
          ThrottleReadIOPS := Sprintf_v readIOPs
          ThrottleWriteIOPS := Sprintf_v writeIOPs }]),
      ("reset", [
        { Devices := ["/dev/sd[a-z]", "/dev/md[0-99]"]
          ThrottleReadBps := Sprintf_v 0
          ThrottleWriteBps := Sprintf_v 0
          ThrottleReadIOPS := Sprintf_v 0
          ThrottleWriteIOPS := Sprintf_v 0 }])] }

/-- The constructor `NewIOLimiterV1`.  `SetConfig` is the external
`blockio.SetConfig`, giving the error it returns for a configuration and
`force` flag.  The configuration is submitted once with `force = true`; on an
error `log.WithError(err).Fatal("cannot start daemon")` is called; the
statement after the `if` returns the new plugin. -/
def NewIOLimiterV1 (SetConfig : Config → Bool → Option String)
    (writeBytesPerSecond readBytesPerSecond writeIOPs readIOPs : Int) : NewResult :=
  let cfg := newConfig writeBytesPerSecond readBytesPerSecond writeIOPs readIOPs
  let err := SetConfig cfg true
  let calls := [(cfg, true)]
  match err with
  | some e =>
    match logFatal [] e "cannot start daemon" with
    | (logs, .exited code) =>
      { setConfigCalls := calls, logs := logs, outcome := .exited code }
    | (logs, .returned ()) =>
      { setConfigCalls := calls, logs := logs, outcome := .returned {} }
  | none =>
    { setConfigCalls := calls, logs := [], outcome := .returned {} }

/-- The method `Name`. -/
def IOLimiterV1.Name (_c : IOLimiterV1) : String := "iolimiter-v1"

/-! ## `Apply` and the enforcement goroutine -/

/-- A `context.Context` as the goroutine sees it: the instant, in nanoseconds
after the goroutine created its ticker, at which `ctx.Done()` is closed;
`none` when the context is never cancelled.  A context that is already
cancelled when the goroutine starts has `doneAt = some 0`. -/
structure Context where
  doneAt : Option Nat
  deriving DecidableEq, Repr

/-- Where the goroutine is: spawned but not yet run (`armed`), inside the
`for`/`select` loop with its ticker (`ticking`), or returned (`stopped`).
The spec's state Resetting is the inside of the `ctx.Done()` branch, which
`Session.iterate` runs as one step. -/
inductive Phase where
  | armed
  | ticking
  | stopped
  deriving DecidableEq, Repr

/-- The state of one goroutine started by `Apply`: the captured `ctx` and
`cgroupPath`, the phase, the number of values received from `ticker.C`, the
`blockio.SetCgroupClass(path, class)` calls made so far and the log. -/
structure Session where
  ctx : Context
  cgroupPath : String
  phase : Phase
  ticks : Nat
  calls : List (String × String)
  logs : List LogEntry
  deriving DecidableEq, Repr

/-- The two cases of the `select`. -/
inductive SelectCase where
  | ctxDone
  | tickerC
  deriving DecidableEq, Repr

/-- One loop iteration as seen from outside: the case the `select` took and
the error that the `blockio.SetCgroupClass` call of that iteration returned. -/
structure Event where
  chosen : SelectCase
  result : Option String
  deriving DecidableEq, Repr

/-- The log line `log.WithError(err).WithField("cgroupPath", p).Error(...)`. -/
def errorEntry (err : String) (cgroupPath : String) : LogEntry :=
  { level := .error, msg := "cannot write IO limits", err := some err,
    cgroupPath := some cgroupPath }

/-- The log line `log.WithField("cgroupPath", p).Debug(msg)`. -/
def debugEntry (msg : String) (cgroupPath : String) : LogEntry :=
  { level := .debug, msg := msg, err := none, cgroupPath := some cgroupPath }

/-- The lines written for the result of a class assignment: one error line
when the call failed, nothing otherwise. -/
def logIfError (result : Option String) (cgroupPath : String) : List LogEntry :=
  match result with
  | some err => [errorEntry err cgroupPath]
  | none => []

/-- The goroutine's prologue: the debug line and `time.NewTicker`; it runs
once, when the spawned goroutine first executes. -/
def Session.start (s : Session) : Session :=
  match s.phase with
  | .armed =>
    { s with phase := .ticking
             logs := s.logs ++ [debugEntry "starting io limiting" s.cgroupPath] }
  | _ => s

/-- The body of one `for { select { ... } }` iteration.  In the
`ctx.Done()` case the class "reset" is assigned, a failure is logged, the
closing debug line is written and the goroutine returns.  In the `ticker.C`
case the class "default" is assigned, a failure is logged, and the loop goes
on.  A goroutine that has returned does nothing. -/
def Session.iterate (s : Session) (e : Event) : Session :=
  match s.phase with
  | .ticking =>
    match e.chosen with
    | .ctxDone =>
      { s with phase := .stopped
               calls := s.calls ++ [(s.cgroupPath, "reset")]
               logs := s.logs ++ logIfError e.result s.cgroupPath
                        ++ [debugEntry "stopping io limiting" s.cgroupPath] }
    | .tickerC =>
      { s with ticks := s.ticks + 1
               calls := s.calls ++ [(s.cgroupPath, "default")]
               logs := s.logs ++ logIfError e.result s.cgroupPath }
  | _ => s

/-- One scheduling of the goroutine with the given `select` outcome: the
prologue if it has not run yet, then one iteration. -/
def Session.step (s : Session) (e : Event) : Session :=
  s.start.iterate e

/-- The goroutine driven by a sequence of `select` outcomes. -/
def Session.run (s : Session) (events : List Event) : Session :=
  events.foldl Session.step s

/-- What a call of `Apply` did: the error it returned, the goroutines it
started with `go`, and the class assignments it made itself before
returning. -/
structure ApplyResult where
  err : Option String
  spawned : List Session
  calls : List (String × String)
  deriving DecidableEq, Repr

/-- The method `Apply`: the `go` statement starts the goroutine, which
captures `ctx` and `cgroupPath`, and `nil` is returned. -/
def IOLimiterV1.Apply (_c : IOLimiterV1) (ctx : Context) (_basePath cgroupPath : String) :
    ApplyResult :=
  { err := none
    spawned := [{ ctx := ctx, cgroupPath := cgroupPath, phase := .armed, ticks := 0,
                  calls := [], logs := [] }]
    calls := [] }

/-! ## The goroutine against the clock -/

/-- The ticker interval `30 * time.Second`; a `time.Duration` counts
nanoseconds. -/
def tickerInterval : Nat := 30 * 1000000000

/-- The instant at which the ticker channel next holds a value, when it was
last emptied at `emptiedAt` (0 when the ticker is created): the ticker fires
at the multiples of `interval`, its channel buffers one value, and a tick that
finds the buffer full is dropped, so the value the goroutine can receive next
is the one of the first multiple of `interval` after `emptiedAt`. -/
def nextTickAt (interval emptiedAt : Nat) : Nat :=
  (emptiedAt / interval + 1) * interval

/-- The outcome of one timed `select`: the case taken, the instant at which
the goroutine went on, and whether both channels were ready at that instant,
so that the runtime had to choose between them. -/
structure Wake where
  chosen : SelectCase
  time : Nat
  race : Bool
  deriving DecidableEq, Repr

/-- The `select` of a goroutine that reaches it at `now`, with the ticker
channel last emptied at `emptiedAt` and the context done at `doneAt`.  The
goroutine goes on at once when a channel is ready and otherwise at the first
instant at which one is.  With one channel ready that case is taken; with both
ready the runtime's choice is `pick n`, `n` being the number of class
assignments made so far. -/
def selectTimed (pick : Nat → SelectCase) (interval : Nat) (doneAt : Option Nat)
    (now emptiedAt n : Nat) : Wake :=
  let tickAt := nextTickAt interval emptiedAt
  match doneAt with
  | none => { chosen := .tickerC, time := max now tickAt, race := false }
  | some t =>
    let w := max now (min tickAt t)
    if tickAt ≤ w then
      if t ≤ w then { chosen := pick n, time := w, race := true }
      else { chosen := .tickerC, time := w, race := false }
    else { chosen := .ctxDone, time := w, race := false }

/-- A goroutine on the clock: its session, the instant at which it next
reaches the `select`, the instant at which it last emptied the ticker channel,
and whether any `select` so far found both channels ready.  Time counts
nanoseconds from the creation of the ticker. -/
structure Clocked where
  session : Session
  now : Nat
  emptiedAt : Nat
  raced : Bool
  deriving DecidableEq, Repr

/-- The goroutine at the moment it is started. -/
def Session.onClock (s : Session) : Clocked :=
  { session := s, now := 0, emptiedAt := 0, raced := false }

/-- The goroutine run against the clock for at most `fuel` iterations.  The
class assignment made when `n` assignments have been made before it returns
the error `result n` after `duration n` nanoseconds; the call is synchronous,
so the goroutine is back at the `select` only when it has returned.
Receiving a tick empties the ticker channel. -/
def Clocked.run (pick : Nat → SelectCase) (result : Nat → Option String)
    (duration : Nat → Nat) : Nat → Clocked → Clocked
  | 0, st => st
  | fuel + 1, st =>
    let s1 := st.session.start
    match s1.phase with
    | .stopped => { st with session := s1 }
    | _ =>
      let n := s1.calls.length
      let w := selectTimed pick tickerInterval s1.ctx.doneAt st.now st.emptiedAt n
      Clocked.run pick result duration fuel
        { session := s1.iterate { chosen := w.chosen, result := result n }
          now := w.time + duration n
          emptiedAt := if w.chosen = .tickerC then w.time else st.emptiedAt
          raced := st.raced || w.race }

/-- The call durations of a run whose class assignments all take one
millisecond. -/
def millisecondCalls (_n : Nat) : Nat := 1000000

/-- The call durations of a run whose first class assignment takes 70 seconds
and whose later ones return at once. -/
def slowFirstCall (n : Nat) : Nat :=
  if n = 0 then 70000000000 else 0

/-! ## Event sequences and sample sessions -/

/-- Whether the `select` of this iteration took the `ticker.C` case. -/
def Event.isTick (e : Event) : Bool :=
  match e.chosen with
  | .tickerC => true
  | .ctxDone => false

/-- The events of a run of consecutive ticks with the given results. -/
def tickEvents (results : List (Option String)) : List Event :=
  results.map (fun r => { chosen := .tickerC, result := r })

/-- A session for `/sys/fs/cgroup/ws-1` that has just entered its loop. -/
def freshLoopSession : Session :=
  { ctx := { doneAt := none }, cgroupPath := "/sys/fs/cgroup/ws-1", phase := .ticking,
    ticks := 0, calls := [],
    logs := [debugEntry "starting io limiting" "/sys/fs/cgroup/ws-1"] }

/-- A session for `/sys/fs/cgroup/ws-1` in its loop after one tick, with a
context that is already cancelled. -/
def tickedOnceSession : Session :=
  { ctx := { doneAt := some 0 }, cgroupPath := "/sys/fs/cgroup/ws-1", phase := .ticking,
    ticks := 1, calls := [("/sys/fs/cgroup/ws-1", "default")],
    logs := [debugEntry "starting io limiting" "/sys/fs/cgroup/ws-1"] }

/-! ## Integer formatting agrees with the decimal representation -/

theorem digit_char_eq (d : Nat) (h : d < 10) : Char.ofNat (48 + d) = Nat.digitChar d := by
  interval_cases d <;> rfl

theorem fmtDigitLoop_eq_toDigitsCore (fuel : Nat) :
    ∀ (u : Nat) (buf : List Char), u ≤ fuel →
      fmtDigitLoop fuel u buf = Nat.toDigitsCore 10 (fuel + 1) u buf := by
  induction fuel with
  | zero =>
    intro u buf hu
    have h0 : u = 0 := by omega
    subst h0
    rfl
  | succ n ih =>
    intro u buf hu
    by_cases h10 : 10 ≤ u
    · have hne : u / 10 ≠ 0 := by omega
      have hle : u / 10 ≤ n := by omega
      have hd : u - u / 10 * 10 = u % 10 := by omega
      rw [fmtDigitLoop, if_pos h10, ih _ _ hle, hd, digit_char_eq _ (Nat.mod_lt _ (by decide))]
      conv_rhs => rw [Nat.toDigitsCore]
      simp [hne]
    · have hz : u / 10 = 0 := by omega
      have hm : u % 10 = u := by omega
      rw [fmtDigitLoop, if_neg h10, digit_char_eq _ (by omega)]
      conv_rhs => rw [Nat.toDigitsCore]
      simp [hz, hm]

theorem fmtDigitLoop_eq_toDigits (u : Nat) : fmtDigitLoop u u [] = Nat.toDigits 10 u :=
  fmtDigitLoop_eq_toDigitsCore u u [] (Nat.le_refl u)

/-- For a non-negative value `%v` gives Lean's decimal numeral of it. -/
theorem Sprintf_v_of_nonneg (v : Int) (h : 0 ≤ v) : Sprintf_v v = Nat.repr v.toNat := by
  have hn : ¬ v < 0 := by omega
  have ha : v.natAbs = v.toNat := by omega
  simp [Sprintf_v, fmtInteger, hn, ha, fmtDigitLoop_eq_toDigits, Nat.repr, List.asString]

theorem fmtDigitLoop_length (fuel : Nat) :
    ∀ (u : Nat) (buf : List Char), buf.length + 1 ≤ (fmtDigitLoop fuel u buf).length := by
  induction fuel with
  | zero => intro u buf; simp [fmtDigitLoop]
  | succ n ih =>
    intro u buf
    rw [fmtDigitLoop]
    split
    · have := ih (u / 10) (Char.ofNat (48 + (u - u / 10 * 10)) :: buf)
      simp at this
      omega
    · simp

theorem fmtDigitLoop_eq_zero_iff (u : Nat) : fmtDigitLoop u u [] = ['0'] ↔ u = 0 := by
  constructor
  · intro h
    by_cases h10 : 10 ≤ u
    · obtain ⟨n, rfl⟩ : ∃ n, u = n + 1 := ⟨u - 1, by omega⟩
      rw [fmtDigitLoop, if_pos h10] at h
      have hl := fmtDigitLoop_length n ((n + 1) / 10)
        [Char.ofNat (48 + ((n + 1) - (n + 1) / 10 * 10))]
      rw [h] at hl
      simp at hl
    · have hu : u < 10 := by omega
      interval_cases u
      · rfl
      all_goals (exact absurd h (by decide))
  · rintro rfl
    rfl

/-- The formatted integer is "0" exactly for the value zero. -/
theorem Sprintf_v_eq_zero_iff (v : Int) : Sprintf_v v = "0" ↔ v = 0 := by
  constructor
  · intro h
    by_cases hneg : v < 0
    · have h1 : (Sprintf_v v).data = ("0" : String).data := by rw [h]
      simp [Sprintf_v, fmtInteger, hneg] at h1
    · have h1 : (Sprintf_v v).data = ("0" : String).data := by rw [h]
      simp [Sprintf_v, fmtInteger, hneg] at h1
      have := (fmtDigitLoop_eq_zero_iff v.natAbs).1 (by simpa using h1)
      omega
  · rintro rfl
    rfl

theorem NewIOLimiterV1_of_ok (SetConfig : Config → Bool → Option String) (w r wi ri : Int)
    (h : SetConfig (newConfig w r wi ri) true = none) :
    NewIOLimiterV1 SetConfig w r wi ri =
      { setConfigCalls := [(newConfig w r wi ri, true)], logs := [], outcome := .returned {} } := by
  unfold NewIOLimiterV1
  simp only [h]

theorem NewIOLimiterV1_of_error (SetConfig : Config → Bool → Option String) (w r wi ri : Int)
    (e : String) (h : SetConfig (newConfig w r wi ri) true = some e) :
    NewIOLimiterV1 SetConfig w r wi ri =
      { setConfigCalls := [(newConfig w r wi ri, true)]
        logs := [{ level := .fatal, msg := "cannot start daemon", err := some e,
                   cgroupPath := none }]
        outcome := .exited 1 } := by
  unfold NewIOLimiterV1
  simp only [h, logFatal, List.nil_append]

theorem NewIOLimiterV1_calls (SetConfig : Config → Bool → Option String) (w r wi ri : Int) :
    (NewIOLimiterV1 SetConfig w r wi ri).setConfigCalls = [(newConfig w r wi ri, true)] := by
  cases h : SetConfig (newConfig w r wi ri) true with
  | none => rw [NewIOLimiterV1_of_ok _ _ _ _ _ h]
  | some e => rw [NewIOLimiterV1_of_error _ _ _ _ _ e h]

/-! ## The configuration submitted by `NewIOLimiterV1` -/

/-- Claim C1: for non-negative limits the one configuration that
`NewIOLimiterV1` submits has a "default" class made of one rule whose
write-bps, read-bps, write-IOPS and read-IOPS strings are the decimal numerals
of `writeBytesPerSecond`, `readBytesPerSecond`, `writeIOPs` and `readIOPs`, in
that order, whatever the collaborator answers. -/
theorem C1_default_class_decimal (SetConfig : Config → Bool → Option String)
    (writeBps readBps writeIOPs readIOPs : Int)
    (hw : 0 ≤ writeBps) (hr : 0 ≤ readBps) (hwi : 0 ≤ writeIOPs) (hri : 0 ≤ readIOPs) :
    (NewIOLimiterV1 SetConfig writeBps readBps writeIOPs readIOPs).setConfigCalls.map
        (fun c => c.1.class? "default") =
      [some [{ Devices := ["/dev/sd[a-z]", "/dev/md[0-99]"]
               ThrottleReadBps := Nat.repr readBps.toNat
               ThrottleWriteBps := Nat.repr writeBps.toNat
               ThrottleReadIOPS := Nat.repr readIOPs.toNat
               ThrottleWriteIOPS := Nat.repr writeIOPs.toNat }]] := by
  rw [NewIOLimiterV1_calls, ← Sprintf_v_of_nonneg _ hw, ← Sprintf_v_of_nonneg _ hr,
    ← Sprintf_v_of_nonneg _ hwi, ← Sprintf_v_of_nonneg _ hri]
  rfl

/-- Witness of C1 at the limits (1000000, 2000000, 100, 200). -/
theorem C1_default_class_decimal_witness :
    (0 : Int) ≤ 1000000 ∧ (0 : Int) ≤ 2000000 ∧ (0 : Int) ≤ 100 ∧ (0 : Int) ≤ 200 ∧
    (NewIOLimiterV1 (fun _ _ => none) 1000000 2000000 100 200).setConfigCalls.map
        (fun c => c.1.class? "default") =
      [some [{ Devices := ["/dev/sd[a-z]", "/dev/md[0-99]"]
               ThrottleReadBps := "2000000"
               ThrottleWriteBps := "1000000"
               ThrottleReadIOPS := "200"
               ThrottleWriteIOPS := "100" }]] :=
  ⟨by decide, by decide, by decide, by decide,
    (C1_default_class_decimal (fun _ _ => none) 1000000 2000000 100 200
      (by decide) (by decide) (by decide) (by decide)).trans (by decide)⟩

/-- Claim C2: whatever the four limits and whatever the collaborator answers,
the "reset" class of the submitted configuration is one rule whose four
throttle strings are all "0". -/
theorem C2_reset_class_all_zero (SetConfig : Config → Bool → Option String)
    (writeBps readBps writeIOPs readIOPs : Int) :
    (NewIOLimiterV1 SetConfig writeBps readBps writeIOPs readIOPs).setConfigCalls.map
        (fun c => c.1.class? "reset") =
      [some [{ Devices := ["/dev/sd[a-z]", "/dev/md[0-99]"]
               ThrottleReadBps := "0"
               ThrottleWriteBps := "0"
               ThrottleReadIOPS := "0"
               ThrottleWriteIOPS := "0" }]] := by
  rw [NewIOLimiterV1_calls]
  rfl

/-- Claim C3: `NewIOLimiterV1` makes exactly one submission, with the force
(enable IOPS limiting) flag `true`; the submitted configuration has exactly the
classes "default" and "reset", each of one rule, and the device patterns of
each rule are `/dev/sd[a-z]` and `/dev/md[0-99]`. -/
theorem C3_single_submission_shape (SetConfig : Config → Bool → Option String)
    (writeBps readBps writeIOPs readIOPs : Int) :
    (NewIOLimiterV1 SetConfig writeBps readBps writeIOPs readIOPs).setConfigCalls.map
        (fun c => (c.2, c.1.classNames,
          c.1.Classes.map (fun e => e.2.map (fun rule => rule.Devices)))) =
      [(true, ["default", "reset"],
        [[["/dev/sd[a-z]", "/dev/md[0-99]"]], [["/dev/sd[a-z]", "/dev/md[0-99]"]]])] := by
  rw [NewIOLimiterV1_calls]
  rfl

/-- Claim C8: `NewIOLimiterV1` returns a plugin exactly when the submission
was accepted, and when the submission is rejected the process exits through
the fatal log call and nothing is returned. -/
theorem C8_fatal_iff_rejected (SetConfig : Config → Bool → Option String)
    (writeBps readBps writeIOPs readIOPs : Int) :
    ((NewIOLimiterV1 SetConfig writeBps readBps writeIOPs readIOPs).outcome = .returned {} ↔
      SetConfig (newConfig writeBps readBps writeIOPs readIOPs) true = none) ∧
    ((NewIOLimiterV1 SetConfig writeBps readBps writeIOPs readIOPs).outcome = .exited 1 ↔
      SetConfig (newConfig writeBps readBps writeIOPs readIOPs) true ≠ none) ∧
    ((NewIOLimiterV1 SetConfig writeBps readBps writeIOPs readIOPs).logs.map
        (fun l => (l.level, l.msg, l.err)) =
      match SetConfig (newConfig writeBps readBps writeIOPs readIOPs) true with
      | some e => [(.fatal, "cannot start daemon", some e)]
      | none => []) := by
  cases h : SetConfig (newConfig writeBps readBps writeIOPs readIOPs) true with
  | none => simp [NewIOLimiterV1_of_ok _ _ _ _ _ h]
  | some e => simp [NewIOLimiterV1_of_error _ _ _ _ _ e h]

/-- Claim C10: in the submitted configuration the "default" class equals the
"reset" class exactly when all four limits are zero; any other value, a
negative one included, makes them differ. -/
theorem C10_default_eq_reset_iff_all_zero (SetConfig : Config → Bool → Option String)
    (writeBps readBps writeIOPs readIOPs : Int) :
    ((NewIOLimiterV1 SetConfig writeBps readBps writeIOPs readIOPs).setConfigCalls.map
        (fun c => c.1.class? "default") =
      (NewIOLimiterV1 SetConfig writeBps readBps writeIOPs readIOPs).setConfigCalls.map
        (fun c => c.1.class? "reset")) ↔
    (writeBps = 0 ∧ readBps = 0 ∧ writeIOPs = 0 ∧ readIOPs = 0) := by
  rw [NewIOLimiterV1_calls]
  have hz : Sprintf_v 0 = "0" := rfl
  simp [newConfig, Config.class?, hz, Sprintf_v_eq_zero_iff]
  tauto

/-! ## Steps of the enforcement goroutine -/

theorem Session.step_stopped (s : Session) (e : Event) (h : s.phase = .stopped) :
    s.step e = s := by
  simp [Session.step, Session.start, Session.iterate, h]

theorem Session.run_stopped (events : List Event) :
    ∀ s : Session, s.phase = .stopped → s.run events = s := by
  induction events with
  | nil => intro s _; rfl
  | cons e rest ih =>
    intro s h
    show Session.run (s.step e) rest = s
    rw [Session.step_stopped s e h]
    exact ih s h

theorem Session.run_cons (s : Session) (e : Event) (rest : List Event) :
    s.run (e :: rest) = (s.step e).run rest := rfl

theorem Session.run_append (s : Session) (xs ys : List Event) :
    s.run (xs ++ ys) = (s.run xs).run ys := by
  simp [Session.run, List.foldl_append]

theorem Session.step_tick (s : Session) (r : Option String) (h : s.phase ≠ .stopped) :
    (s.step { chosen := .tickerC, result := r }).phase = .ticking ∧
    (s.step { chosen := .tickerC, result := r }).cgroupPath = s.cgroupPath ∧
    (s.step { chosen := .tickerC, result := r }).ctx = s.ctx ∧
    (s.step { chosen := .tickerC, result := r }).ticks = s.ticks + 1 ∧
    (s.step { chosen := .tickerC, result := r }).calls =
      s.calls ++ [(s.cgroupPath, "default")] ∧
    (s.step { chosen := .tickerC, result := r }).logs =
      s.start.logs ++ logIfError r s.cgroupPath := by
  obtain ⟨ctx, p, ph, t, calls, logs⟩ := s
  cases ph
  · simp [Session.step, Session.start, Session.iterate]
  · simp [Session.step, Session.start, Session.iterate]
  · exact absurd rfl h

theorem Session.step_done (s : Session) (r : Option String) (h : s.phase ≠ .stopped) :
    (s.step { chosen := .ctxDone, result := r }).phase = .stopped ∧
    (s.step { chosen := .ctxDone, result := r }).cgroupPath = s.cgroupPath ∧
    (s.step { chosen := .ctxDone, result := r }).ticks = s.ticks ∧
    (s.step { chosen := .ctxDone, result := r }).calls =
      s.calls ++ [(s.cgroupPath, "reset")] ∧
    (s.step { chosen := .ctxDone, result := r }).logs =
      s.start.logs ++ logIfError r s.cgroupPath ++
        [debugEntry "stopping io limiting" s.cgroupPath] := by
  obtain ⟨ctx, p, ph, t, calls, logs⟩ := s
  cases ph
  · simp [Session.step, Session.start, Session.iterate]
  · simp [Session.step, Session.start, Session.iterate]
  · exact absurd rfl h

theorem Session.run_ticks (results : List (Option String)) :
    ∀ s : Session, s.phase = .ticking →
      (s.run (tickEvents results)).phase = .ticking ∧
      (s.run (tickEvents results)).cgroupPath = s.cgroupPath ∧
      (s.run (tickEvents results)).ctx = s.ctx ∧
      (s.run (tickEvents results)).ticks = s.ticks + results.length ∧
      (s.run (tickEvents results)).calls =
        s.calls ++ List.replicate results.length (s.cgroupPath, "default") ∧
      (s.run (tickEvents results)).logs =
        s.logs ++ (results.map (fun r => logIfError r s.cgroupPath)).flatten := by
  induction results with
  | nil => intro s h; simp [tickEvents, Session.run, h]
  | cons r rest ih =>
    intro s h
    have hne : s.phase ≠ .stopped := by rw [h]; decide
    obtain ⟨h1, h2, h3, h4, h5, h6⟩ := Session.step_tick s r hne
    obtain ⟨i1, i2, i3, i4, i5, i6⟩ := ih _ h1
    have hst : s.start = s := by simp [Session.start, h]
    have hrun : s.run (tickEvents (r :: rest)) =
        (s.step { chosen := .tickerC, result := r }).run (tickEvents rest) := rfl
    rw [hrun]
    refine ⟨i1, by rw [i2, h2], by rw [i3, h3], ?_, ?_, ?_⟩
    · rw [i4, h4, List.length_cons]; omega
    · rw [i5, h5, h2, List.length_cons, List.replicate_succ, List.append_assoc]
      rfl
    · rw [i6, h6, h2, hst]
      simp [List.append_assoc]

theorem Session.run_shape (events : List Event) :
    ∀ s : Session, s.phase ≠ .stopped →
      (s.run events).calls =
        s.calls ++ List.replicate (events.takeWhile Event.isTick).length (s.cgroupPath, "default")
          ++ (if events.all Event.isTick then [] else [(s.cgroupPath, "reset")]) ∧
      (s.run events).phase =
        if events.all Event.isTick then (if events.isEmpty then s.phase else .ticking)
        else .stopped := by
  induction events with
  | nil => intro s _; simp [Session.run]
  | cons e rest ih =>
    intro s h
    obtain ⟨chosen, r⟩ := e
    rw [Session.run_cons]
    cases chosen with
    | ctxDone =>
      obtain ⟨h1, _, _, h4, _⟩ := Session.step_done s r h
      rw [Session.run_stopped rest _ h1]
      simp [Event.isTick, h1, h4]
    | tickerC =>
      obtain ⟨h1, h2, _, _, h5, _⟩ := Session.step_tick s r h
      have hne : (s.step { chosen := .tickerC, result := r }).phase ≠ .stopped := by
        rw [h1]; decide
      obtain ⟨i1, i2⟩ := ih _ hne
      rw [i1, i2, h1, h2, h5]
      constructor
      · simp [Event.isTick, List.replicate_succ]
      · by_cases hall : rest.all Event.isTick = true
        · simp [Event.isTick]
        · simp [Event.isTick]

theorem logIfError_failures (errs : List String) (p : String) :
    (List.map (fun r => logIfError r p) (errs.map some)).flatten =
      errs.map (fun e => errorEntry e p) := by
  induction errs with
  | nil => rfl
  | cons e rest ih =>
    simp only [List.map_cons, List.flatten_cons, ih]
    rfl

theorem tickerInterval_pos : 0 < tickerInterval := by decide

theorem nextTickAt_mul (k : Nat) :
    nextTickAt tickerInterval (k * tickerInterval) = (k + 1) * tickerInterval := by
  unfold nextTickAt
  rw [Nat.mul_div_cancel _ tickerInterval_pos]

theorem Clocked.run_of_stopped (pick : Nat → SelectCase) (result : Nat → Option String)
    (duration : Nat → Nat) (fuel : Nat) (st : Clocked) (h : st.session.phase = .stopped) :
    Clocked.run pick result duration fuel st = st := by
  cases fuel with
  | zero => rfl
  | succ n =>
    have hst : st.session.start = st.session := by simp [Session.start, h]
    rw [Clocked.run]
    simp only [hst, h]

theorem Session.start_of_running (s : Session) (hs : s.phase ≠ .stopped) :
    s.start.phase = .ticking ∧ s.start.ctx = s.ctx ∧ s.start.calls = s.calls := by
  obtain ⟨ctx, p, ph, t, calls, logs⟩ := s
  cases ph
  · exact ⟨rfl, rfl, rfl⟩
  · exact ⟨rfl, rfl, rfl⟩
  · exact absurd rfl hs

theorem Clocked.run_fast_calls (pick : Nat → SelectCase) (result : Nat → Option String)
    (duration : Nat → Nat) (hfast : ∀ n, duration n < tickerInterval)
    (T : Nat) (hrace : T = 0 ∨ T % tickerInterval ≠ 0) (fuel : Nat) :
    ∀ st : Clocked, st.session.phase ≠ .stopped → st.session.ctx.doneAt = some T →
      st.emptiedAt = st.session.ticks * tickerInterval →
      st.now < (st.session.ticks + 1) * tickerInterval →
      st.session.ticks ≤ T / tickerInterval →
      T / tickerInterval - st.session.ticks + 1 ≤ fuel →
      (Clocked.run pick result duration fuel st).session.phase = .stopped ∧
      (Clocked.run pick result duration fuel st).session.calls =
        st.session.calls ++
          List.replicate (T / tickerInterval - st.session.ticks) (st.session.cgroupPath, "default")
          ++ [(st.session.cgroupPath, "reset")] ∧
      (Clocked.run pick result duration fuel st).raced = st.raced := by
  induction fuel with
  | zero => intro st _ _ _ _ _ hf; omega
  | succ m ih =>
    intro st hs hctx hempty hnow hk hf
    have hd := tickerInterval_pos
    obtain ⟨hph, hsc, hcalls⟩ := Session.start_of_running st.session hs
    have hst : st.session.start.iterate = st.session.step := rfl
    rw [Clocked.run]
    simp only [hph, hst, hsc, hctx, hcalls, hempty, nextTickAt_mul, selectTimed]
    by_cases hlast : st.session.ticks = T / tickerInterval
    · have hlt : T < (st.session.ticks + 1) * tickerInterval := by
        rw [hlast]
        exact Nat.lt_mul_of_div_lt (Nat.lt_succ_self _) hd
      have hw : ¬ (st.session.ticks + 1) * tickerInterval ≤
          max st.now (min ((st.session.ticks + 1) * tickerInterval) T) := by
        rw [Nat.min_def, Nat.max_def]
        split <;> split <;> omega
      simp only [hw, if_false]
      obtain ⟨h1, _, _, h4, _⟩ :=
        Session.step_done st.session (result st.session.calls.length) hs
      rw [Clocked.run_of_stopped _ _ _ _ _ h1]
      simp [h1, h4, hlast]
    · have hlt : st.session.ticks + 1 ≤ T / tickerInterval := by omega
      have hle : (st.session.ticks + 1) * tickerInterval ≤ T := (Nat.le_div_iff_mul_le hd).1 hlt
      have hne : (st.session.ticks + 1) * tickerInterval ≠ T := by
        intro heq
        rcases hrace with h0 | hm
        · rw [h0] at heq
          have : 0 < (st.session.ticks + 1) * tickerInterval := Nat.mul_pos (by omega) hd
          omega
        · apply hm
          rw [← heq]
          exact Nat.mul_mod_left _ _
      have hweq : max st.now (min ((st.session.ticks + 1) * tickerInterval) T) =
          (st.session.ticks + 1) * tickerInterval := by
        rw [Nat.min_def, Nat.max_def]
        split <;> split <;> omega
      have hT : ¬ T ≤ (st.session.ticks + 1) * tickerInterval := by omega
      simp only [hweq, Nat.le_refl, if_true, hT, if_false]
      obtain ⟨h1, h2, h3, h4, h5, _⟩ :=
        Session.step_tick st.session (result st.session.calls.length) hs
      have hne2 : (st.session.step
          { chosen := .tickerC, result := result st.session.calls.length }).phase ≠ .stopped := by
        rw [h1]; decide
      have hdur := hfast st.session.calls.length
      obtain ⟨i1, i2, i3⟩ := ih
        { session := st.session.step
            { chosen := .tickerC, result := result st.session.calls.length }
          now := (st.session.ticks + 1) * tickerInterval + duration st.session.calls.length
          emptiedAt := (st.session.ticks + 1) * tickerInterval
          raced := st.raced || false }
        hne2 (by simp only [h3]; exact hctx) (by simp only [h4])
        (by
          simp only [h4]
          have : (st.session.ticks + 1 + 1) * tickerInterval =
            (st.session.ticks + 1) * tickerInterval + tickerInterval := by ring
          omega)
        (by simp only [h4]; exact hlt) (by simp only [h4]; omega)
      refine ⟨i1, ?_, ?_⟩
      · rw [i2]
        simp only [h5, h4, h2]
        have hrep : T / tickerInterval - st.session.ticks =
            (T / tickerInterval - (st.session.ticks + 1)) + 1 := by omega
        rw [hrep, List.replicate_succ]
        simp [List.append_assoc]
      · rw [i3]
        simp

/-! ## The enforcement session -/

/-- Claim C4: a session started by `Apply` for cgroup path `p` whose context is
cancelled at time `T` (nanoseconds after the ticker was created), with no tick
falling on the instant of cancellation and with every class assignment
returning in less than the 30 seconds between two ticks, makes exactly
`T / 30s` "default" assignments to `p`, then exactly one "reset" assignment to
`p`, and has returned, without any `select` having had to choose between two
ready channels; this holds for every number of iterations allowed from
`T / 30s + 1` on, whatever the assignments answer. -/
theorem C4_fast_calls_defaults_then_reset (c : IOLimiterV1) (basePath p : String) (T : Nat)
    (pick : Nat → SelectCase) (result : Nat → Option String) (duration : Nat → Nat)
    (fuel : Nat) (hfast : ∀ n, duration n < tickerInterval)
    (hrace : T = 0 ∨ T % tickerInterval ≠ 0) (hfuel : T / tickerInterval + 1 ≤ fuel) :
    (c.Apply { doneAt := some T } basePath p).spawned.map
        (fun s => ((Clocked.run pick result duration fuel s.onClock).session.phase,
                   (Clocked.run pick result duration fuel s.onClock).session.calls,
                   (Clocked.run pick result duration fuel s.onClock).raced)) =
      [(.stopped, List.replicate (T / tickerInterval) (p, "default") ++ [(p, "reset")],
        false)] := by
  have h := Clocked.run_fast_calls pick result duration hfast T hrace fuel
    (Session.onClock { ctx := { doneAt := some T }, cgroupPath := p, phase := .armed,
                       ticks := 0, calls := [], logs := [] })
    (by simp [Session.onClock]) rfl (by simp [Session.onClock])
    (by simpa [Session.onClock] using tickerInterval_pos) (Nat.zero_le _)
    (by simpa [Session.onClock] using hfuel)
  simp only [IOLimiterV1.Apply, List.map_cons, List.map_nil, h.1, h.2.1, h.2.2]
  simp [Session.onClock]

/-- Witness of C4 with assignments that take one millisecond: cancelling after
65 seconds gives two "default" assignments and then one "reset"; cancelling
after 10 seconds, before the first tick, gives no "default" assignment and one
"reset". -/
theorem C4_fast_calls_defaults_then_reset_witness :
    ((∀ n : Nat, millisecondCalls n < tickerInterval) ∧
      (65000000000 = 0 ∨ 65000000000 % tickerInterval ≠ 0) ∧
      65000000000 / tickerInterval + 1 ≤ 3 ∧
      ((IOLimiterV1.mk).Apply { doneAt := some 65000000000 } "" "/sys/fs/cgroup/ws-1").spawned.map
          (fun s =>
            ((Clocked.run (fun _ => .tickerC) (fun _ => none) millisecondCalls 3
                s.onClock).session.phase,
             (Clocked.run (fun _ => .tickerC) (fun _ => none) millisecondCalls 3
                s.onClock).session.calls,
             (Clocked.run (fun _ => .tickerC) (fun _ => none) millisecondCalls 3
                s.onClock).raced)) =
        [(.stopped, [("/sys/fs/cgroup/ws-1", "default"), ("/sys/fs/cgroup/ws-1", "default"),
                     ("/sys/fs/cgroup/ws-1", "reset")], false)]) ∧
    ((∀ n : Nat, millisecondCalls n < tickerInterval) ∧
      (10000000000 = 0 ∨ 10000000000 % tickerInterval ≠ 0) ∧
      10000000000 / tickerInterval + 1 ≤ 1 ∧
      ((IOLimiterV1.mk).Apply { doneAt := some 10000000000 } "" "/sys/fs/cgroup/ws-1").spawned.map
          (fun s =>
            ((Clocked.run (fun _ => .tickerC) (fun _ => some "EBUSY") millisecondCalls 1
                s.onClock).session.phase,
             (Clocked.run (fun _ => .tickerC) (fun _ => some "EBUSY") millisecondCalls 1
                s.onClock).session.calls,
             (Clocked.run (fun _ => .tickerC) (fun _ => some "EBUSY") millisecondCalls 1
                s.onClock).raced)) =
        [(.stopped, [("/sys/fs/cgroup/ws-1", "reset")], false)]) :=
  ⟨⟨fun _ => (by decide : (1000000 : Nat) < tickerInterval), by decide, by decide,
    (C4_fast_calls_defaults_then_reset .mk "" "/sys/fs/cgroup/ws-1" 65000000000
      (fun _ => .tickerC) (fun _ => none) millisecondCalls 3 (fun _ => (by decide : (1000000 : Nat) < tickerInterval))
      (by decide) (by decide)).trans (by decide)⟩,
   ⟨fun _ => (by decide : (1000000 : Nat) < tickerInterval), by decide, by decide,
    (C4_fast_calls_defaults_then_reset .mk "" "/sys/fs/cgroup/ws-1" 10000000000
      (fun _ => .tickerC) (fun _ => some "EBUSY") millisecondCalls 1 (fun _ => (by decide : (1000000 : Nat) < tickerInterval))
      (by decide) (by decide)).trans (by decide)⟩⟩

/-- Counterexample to C4 as stated: the context is cancelled after 130
seconds, the first "default" assignment takes 70 seconds and the later ones
return at once.  No `select` finds both channels ready, so no tick races the
cancellation, yet the session makes three "default" assignments before the
"reset", not the `130s / 30s = 4` of the claim: the tick of second 90 found
the buffer of the ticker channel full and was dropped. -/
theorem C4_slow_call_counterexample :
    (130000000000 = 0 ∨ 130000000000 % tickerInterval ≠ 0) ∧
    130000000000 / tickerInterval = 4 ∧
    ((IOLimiterV1.mk).Apply { doneAt := some 130000000000 } "" "/sys/fs/cgroup/ws-1").spawned.map
        (fun s =>
          ((Clocked.run (fun _ => .tickerC) (fun _ => none) slowFirstCall 5
              s.onClock).session.phase,
           (Clocked.run (fun _ => .tickerC) (fun _ => none) slowFirstCall 5
              s.onClock).session.calls,
           (Clocked.run (fun _ => .tickerC) (fun _ => none) slowFirstCall 5
              s.onClock).raced)) =
      [(.stopped, [("/sys/fs/cgroup/ws-1", "default"), ("/sys/fs/cgroup/ws-1", "default"),
                   ("/sys/fs/cgroup/ws-1", "default"), ("/sys/fs/cgroup/ws-1", "reset")],
        false)] ∧
    ((IOLimiterV1.mk).Apply { doneAt := some 130000000000 } "" "/sys/fs/cgroup/ws-1").spawned.map
        (fun s => (Clocked.run (fun _ => .tickerC) (fun _ => none) slowFirstCall 5
              s.onClock).session.calls) ≠
      [List.replicate (130000000000 / tickerInterval) ("/sys/fs/cgroup/ws-1", "default")
        ++ [("/sys/fs/cgroup/ws-1", "reset")]] := by
  refine ⟨by decide, by decide, by decide, by decide⟩

/-- Claim C5: for every sequence of `select` outcomes given to a session
started by `Apply`, the calls made are a run of "default" assignments, one for
each tick before the first observed cancellation, followed by one "reset"
assignment exactly when a cancellation has been observed, in which case the
session has stopped; nothing that comes after an observed cancellation, ticks
and further cancellation readiness included, changes the session. -/
theorem C5_trace_shape (c : IOLimiterV1) (ctx : Context) (basePath p : String)
    (events more : List Event) (r : Option String) :
    ((c.Apply ctx basePath p).spawned.map
        (fun s => ((s.run events).phase, (s.run events).calls)) =
      [if events.all Event.isTick then
          (if events.isEmpty then Phase.armed else Phase.ticking,
            List.replicate events.length (p, "default"))
        else
          (Phase.stopped,
            List.replicate (events.takeWhile Event.isTick).length (p, "default")
              ++ [(p, "reset")])]) ∧
    ((c.Apply ctx basePath p).spawned.map
        (fun s => s.run (events ++ { chosen := .ctxDone, result := r } :: more)) =
      (c.Apply ctx basePath p).spawned.map
        (fun s => s.run (events ++ [{ chosen := .ctxDone, result := r }]))) := by
  constructor
  · have h := Session.run_shape events
      { ctx := ctx, cgroupPath := p, phase := .armed, ticks := 0, calls := [], logs := [] }
      (by simp)
    simp only [IOLimiterV1.Apply, List.map_cons, List.map_nil, h.1, h.2]
    by_cases hall : events.all Event.isTick = true
    · have htw : events.takeWhile Event.isTick = events := by
        rw [List.takeWhile_eq_self_iff]
        simpa using hall
      simp [hall, htw]
    · simp [hall]
  · simp only [IOLimiterV1.Apply, List.map_cons, List.map_nil]
    have hsplit : events ++ { chosen := .ctxDone, result := r } :: more =
        (events ++ [{ chosen := SelectCase.ctxDone, result := r }]) ++ more := by simp
    rw [hsplit, Session.run_append _ _ more]
    have hst := (Session.run_shape (events ++ [{ chosen := SelectCase.ctxDone, result := r }])
      { ctx := ctx, cgroupPath := p, phase := .armed, ticks := 0, calls := [], logs := [] }
      (by simp)).2
    have hstop : (Session.run
        { ctx := ctx, cgroupPath := p, phase := .armed, ticks := 0, calls := [], logs := [] }
        (events ++ [{ chosen := SelectCase.ctxDone, result := r }])).phase = .stopped := by
      rw [hst]
      simp [Event.isTick]
    rw [Session.run_stopped more _ hstop]

/-- Claim C6: from a session in the loop, after any number of consecutive
"default" assignments that all fail the session is still in the loop with the
same cgroup path, each failure has only been logged, the next tick makes
another "default" assignment to the same path, a later cancellation (after any
further ticks, and whether or not the reset itself fails) adds exactly one
"reset" assignment and stops the session, and `Apply` has returned nil. -/
theorem C6_default_failure_keeps_looping (c : IOLimiterV1) (basePath : String) (s : Session)
    (hs : s.phase = .ticking) (errs : List String) (r r2 : Option String)
    (later : List (Option String)) :
    (s.run (tickEvents (errs.map some))).phase = .ticking ∧
    (s.run (tickEvents (errs.map some))).cgroupPath = s.cgroupPath ∧
    (s.run (tickEvents (errs.map some))).calls =
      s.calls ++ List.replicate errs.length (s.cgroupPath, "default") ∧
    (s.run (tickEvents (errs.map some))).logs =
      s.logs ++ errs.map (fun e => errorEntry e s.cgroupPath) ∧
    ((s.run (tickEvents (errs.map some))).step { chosen := .tickerC, result := r }).phase
      = .ticking ∧
    ((s.run (tickEvents (errs.map some))).step { chosen := .tickerC, result := r }).calls =
      s.calls ++ List.replicate errs.length (s.cgroupPath, "default")
        ++ [(s.cgroupPath, "default")] ∧
    (s.run (tickEvents (errs.map some) ++ tickEvents later
        ++ [{ chosen := .ctxDone, result := r2 }])).phase = .stopped ∧
    (s.run (tickEvents (errs.map some) ++ tickEvents later
        ++ [{ chosen := .ctxDone, result := r2 }])).calls =
      s.calls ++ List.replicate (errs.length + later.length) (s.cgroupPath, "default")
        ++ [(s.cgroupPath, "reset")] ∧
    (c.Apply s.ctx basePath s.cgroupPath).err = none := by
  obtain ⟨h1, h2, _, _, h5, h6⟩ := Session.run_ticks (errs.map some) s hs
  have hne : (s.run (tickEvents (errs.map some))).phase ≠ .stopped := by rw [h1]; decide
  obtain ⟨t1, _, _, _, t5, _⟩ := Session.step_tick (s.run (tickEvents (errs.map some))) r hne
  obtain ⟨l1, l2, _, _, l5, _⟩ :=
    Session.run_ticks later (s.run (tickEvents (errs.map some))) h1
  have hne2 : ((s.run (tickEvents (errs.map some))).run (tickEvents later)).phase ≠ .stopped := by
    rw [l1]; decide
  obtain ⟨d1, _, _, d4, _⟩ :=
    Session.step_done ((s.run (tickEvents (errs.map some))).run (tickEvents later)) r2 hne2
  have hrun : s.run (tickEvents (errs.map some) ++ tickEvents later
      ++ [{ chosen := .ctxDone, result := r2 }]) =
      ((s.run (tickEvents (errs.map some))).run (tickEvents later)).step
        { chosen := .ctxDone, result := r2 } := by
    rw [Session.run_append, Session.run_append]
    rfl
  refine ⟨h1, h2, ?_, ?_, t1, ?_, ?_, ?_, rfl⟩
  · simpa using h5
  · rw [h6, logIfError_failures]
  · rw [t5, h5, h2, List.length_map]
  · rw [hrun]
    exact d1
  · rw [hrun, d4, l5, l2, h5, h2, List.length_map, List.replicate_add]
    simp only [List.append_assoc]

/-- Witness of C6: a running session for `/sys/fs/cgroup/ws-1` after two
failing "default" assignments. -/
theorem C6_default_failure_keeps_looping_witness :
    (freshLoopSession.phase = .ticking) ∧
    (freshLoopSession.run
      (tickEvents (["EBUSY", "ENOENT"].map some) ++ tickEvents [none]
        ++ [{ chosen := .ctxDone, result := none }])).calls =
      [("/sys/fs/cgroup/ws-1", "default"), ("/sys/fs/cgroup/ws-1", "default"),
       ("/sys/fs/cgroup/ws-1", "default"), ("/sys/fs/cgroup/ws-1", "reset")] :=
  ⟨rfl,
    (C6_default_failure_keeps_looping .mk "" freshLoopSession rfl ["EBUSY", "ENOENT"] none none
      [none]).2.2.2.2.2.2.2.1.trans (by decide)⟩

/-- Claim C7: when a session that has not stopped observes cancellation, it
makes exactly one "reset" assignment and is stopped afterwards, whether that
assignment succeeds or fails (a failure is only logged); no later event makes
it assign again. -/
theorem C7_reset_failure_still_stops (s : Session) (hs : s.phase ≠ .stopped)
    (r : Option String) (more : List Event) :
    (s.step { chosen := .ctxDone, result := r }).phase = .stopped ∧
    (s.step { chosen := .ctxDone, result := r }).calls = s.calls ++ [(s.cgroupPath, "reset")] ∧
    (s.step { chosen := .ctxDone, result := r }).logs =
      s.start.logs ++ logIfError r s.cgroupPath
        ++ [debugEntry "stopping io limiting" s.cgroupPath] ∧
    (s.step { chosen := .ctxDone, result := r }).run more =
      s.step { chosen := .ctxDone, result := r } := by
  obtain ⟨h1, _, _, h4, h5⟩ := Session.step_done s r hs
  exact ⟨h1, h4, h5, Session.run_stopped more _ h1⟩

/-- Witness of C7: a running session whose reset fails, followed by a tick and
a second cancellation readiness. -/
theorem C7_reset_failure_still_stops_witness :
    (tickedOnceSession.phase ≠ .stopped) ∧
    ((tickedOnceSession.step { chosen := .ctxDone, result := some "EIO" }).run
      [{ chosen := .tickerC, result := none }, { chosen := .ctxDone, result := none }]).calls =
      [("/sys/fs/cgroup/ws-1", "default"), ("/sys/fs/cgroup/ws-1", "reset")] :=
  ⟨by decide,
    (congrArg Session.calls (C7_reset_failure_still_stops tickedOnceSession (by decide)
      (some "EIO")
      [{ chosen := .tickerC, result := none },
       { chosen := .ctxDone, result := none }]).2.2.2).trans (by decide)⟩

/-- Claim C9: for every context (an already cancelled one included), base path
and cgroup path (the empty one included), `Apply` returns the nil error, makes
no class assignment itself, and leaves exactly one spawned goroutine for that
path which has not yet made any call; whatever the goroutine is later given,
failures included, all its calls are its own and target that path. -/
theorem C9_apply_returns_nil (c : IOLimiterV1) (ctx : Context) (basePath p : String)
    (events : List Event) :
    (c.Apply ctx basePath p).err = none ∧
    (c.Apply ctx basePath p).calls = [] ∧
    (c.Apply ctx basePath p).spawned.map (fun s => (s.ctx, s.cgroupPath, s.phase, s.calls)) =
      [(ctx, p, .armed, [])] ∧
    (c.Apply ctx basePath p).spawned.map
        (fun s => ((s.run events).calls.map Prod.fst).all (fun q => q == p)) = [true] := by
  refine ⟨rfl, rfl, rfl, ?_⟩
  have h := (Session.run_shape events
    { ctx := ctx, cgroupPath := p, phase := .armed, ticks := 0, calls := [], logs := [] }
    (by simp)).1
  simp only [IOLimiterV1.Apply, List.map_cons, List.map_nil, h]
  by_cases hall : events.all Event.isTick = true
  · simp [hall]
  · simp [hall]

end Cgroup
